import Mathlib

/-!
Shallow embedding of the content-authenticity edge function (the
failover variant of `analyze-content`): the request handler `serve`,
its Search1API credential failover loop, the model-response extractor,
best-effort persistence, and response assembly.  External collaborators
(identity service, search provider, model gateway, datastore, and the
runtime JSON decoder) are modelled as oracles gathered in a `World`
record; a JavaScript `throw` is an explicit `thrown` constructor, caught
by the handler's outer `catch`.  Every external call the handler makes
is recorded, in order, in a `List Call` trace.
-/

namespace TruthSeeker

/-- One search result entry (an element of `searchData.results`). -/
structure EvidenceItem where
  title : String
  url : String
  snippet : String
deriving Repr, DecidableEq

/-- The shape the handler reads off the decoded model JSON:
`result.authenticity`, `result.status`, `result.details`,
`result.manipulationIndicators` (a JSON field that is absent is `none`).
Scores are integers here; the prompts request integer scores. -/
structure ModelOutput where
  authenticity : Int
  status : String
  details : String
  manipulationIndicators : Option (List String) := none
deriving Repr, DecidableEq

/-- Outcome of an awaited call that can throw: either a JS exception
carrying `Error.message`, or a returned value. -/
inductive Outcome (α : Type) where
  | thrown (msg : String)
  | ret (a : α)
deriving Repr, DecidableEq

/-- The regex match `aiResponse.match` with pattern brace-open,
`[\s\S]*` (greedy), brace-close: the leftmost-greedy match runs from the
first brace-open that is followed by some brace-close, up to the last
brace-close of the string; `none` when no such pair exists. -/
def jsonMatch (s : String) : Option String :=
  let cs := s.data
  match cs.findIdx? (fun c => c = '\x7b'), cs.reverse.findIdx? (fun c => c = '\x7d') with
  | some i, some jr =>
      let j := cs.length - 1 - jr
      if i < j then some (String.mk ((cs.drop i).take (j - i + 1))) else none
  | _, _ => none

/-- The response-parse block: try to extract a JSON object from the raw
model text and decode it (`jsonDecode` stands for the runtime
`JSON.parse`, `none` meaning it throws); if there is no match, or
decoding throws, fall back to the fixed degraded result
`authenticity 50, status "suspicious", details := the raw text`.
Total by construction: no parse failure escapes this block. -/
def extractResult (jsonDecode : String → Option ModelOutput) (aiResponse : String) :
    ModelOutput :=
  match jsonMatch aiResponse with
  | some m =>
      match jsonDecode m with
      | some r => r
      | none => { authenticity := 50, status := "suspicious", details := aiResponse }
  | none => { authenticity := 50, status := "suspicious", details := aiResponse }

/-- The Search1API key list: the environment credential followed by the
three hardcoded credentials, with falsy entries (absent, or the empty
string) removed by `filter(Boolean)`. -/
def search1ApiKeys (envKey : Option String) : List String :=
  (([envKey,
     some "3128939A-7BC7-4E25-9D2D-5B1DBC56388C",
     some "DF50ACC8-B148-4ECD-9A70-68B814BA22B5",
     some "9FB564F9-8307-4878-B90E-7AE12149A714"]).filterMap id).filter
    (fun s => s ≠ "")

theorem search1ApiKeys_length (envKey : Option String) :
    3 ≤ (search1ApiKeys envKey).length := by
  cases envKey with
  | none => decide
  | some s =>
      by_cases h : s = ""
      · subst h; decide
      · simp [search1ApiKeys, h]

theorem search1ApiKeys_ne_nil (envKey : Option String) :
    search1ApiKeys envKey ≠ [] := by
  intro h
  have h3 := search1ApiKeys_length envKey
  rw [h] at h3
  simp at h3

/-- The authenticated caller (`user` returned by the identity service). -/
structure User where
  id : String
deriving Repr, DecidableEq

/-- What `supabase.auth.getUser(token)` returns when it does not throw:
`data.user` and the `error` flag. -/
structure GetUserRes where
  user : Option User
  error : Bool
deriving Repr, DecidableEq

/-- One response from the search provider: `searchResponse.ok`, its HTTP
status (only logged), and the outcome of reading the ok body — the
`searchResponse.json()` await and the `results` field access may throw
(caught by the per-credential try), otherwise they yield
`searchData.results` (`none` when the field is absent, in which case
the code substitutes `[]`). -/
structure SearchResp where
  ok : Bool
  status : Nat
  results : Outcome (Option (List EvidenceItem))
deriving Repr, DecidableEq

/-- Outcome of the single call to the model gateway: the fetch throws,
or returns a non-ok HTTP response (whose body text feeds the thrown
diagnostic), or succeeds — in which case reading
`data.choices[0].message.content` may itself throw. -/
inductive AIResult where
  | thrown (msg : String)
  | httpError (status : Nat) (errorText : String)
  | success (content : Outcome String)
deriving Repr, DecidableEq

/-- Outcome of one datastore insert chain
(`insert(row).select(id).single()`): the await throws, or returns a
`data`/`error` pair — `error` is the `dbError` flag and `dataId` is
`insertData?.id` (`none` when `data` is null). -/
inductive DbResult where
  | thrown (msg : String)
  | ret (error : Bool) (dataId : Option Nat)
deriving Repr, DecidableEq

/-- The row passed to the `analysis_results` insert. -/
structure AnalysisRow where
  user_id : String
  content_type : String
  authenticity_score : Int
  detailed_analysis : String
  manipulation_indicators : List String
  content_preview : String
deriving Repr, DecidableEq

/-- One external call made by the handler, recorded in order. -/
inductive Call where
  | getUser
  | feedbackRead
  | searchFetch (credIdx : Nat)
  | aiGateway
  | dbInsert (row : AnalysisRow)
deriving Repr, DecidableEq

/-- The behaviour of every external collaborator during one request:
environment variables, the identity service, the feedback store (whose
reader has its own catch-all and always yields a plain string), the
search provider per credential index, the model gateway, the runtime
JSON decoder, and the two datastore inserts. -/
structure World where
  lovableApiKey : Option String
  search1ApiKey : Option String
  getUser : Outcome GetUserRes
  feedbackLearnings : String
  searchFetch : Nat → Outcome SearchResp
  aiFetch : AIResult
  jsonDecode : String → Option ModelOutput
  insertVideo : DbResult
  insertMain : DbResult

/-- The destructured request body `contentType, content, fileData`. -/
structure RequestBody where
  contentType : String
  content : Option String
  fileData : Option String
deriving Repr, DecidableEq

/-- The inbound HTTP request: method, the result of `req.json()`
(which can throw on a malformed body), and the Authorization header. -/
structure Request where
  method : String
  body : Outcome RequestBody
  authHeader : Option String

/-- The fixed `details` text of the oversized-video 200 response. -/
def videoTooLargeDetails : String :=
  "Video file is too large for detailed analysis. For best results, use shorter video clips (under 30 seconds) or lower resolution. Based on file characteristics alone, no definitive assessment can be made."

/-- The fixed `details` text of the generic 500 error body. -/
def fatalDetails : String :=
  "An error occurred during analysis. Please try again."

/-- A response body, one constructor per `new Response(...)` site:
the null CORS body, the plain error bodies (401/429/402), the
oversized-video 200 body, the main 200 verdict body (result spread plus
`analysisId` plus the conditional `apiKeyUsed`), and the outer-catch 500
body. -/
inductive RespBody where
  | empty
  | errorOnly (error : String)
  | videoTooLarge (analysisId : Option Nat)
  | verdict (result : ModelOutput) (analysisId : Option Nat) (apiKeyUsed : Option Nat)
  | fatalError (error : String)
deriving Repr, DecidableEq

/-- The `authenticity` field of the serialized body, when present:
the verdict carries its result's score, the oversized-video body the
literal 50, the 500 body the literal 0. -/
def RespBody.authenticityField : RespBody → Option Int
  | .verdict r _ _ => some r.authenticity
  | .videoTooLarge _ => some 50
  | .fatalError _ => some 0
  | _ => none

/-- The `status` field of the serialized body, when present. -/
def RespBody.statusField : RespBody → Option String
  | .verdict r _ _ => some r.status
  | .videoTooLarge _ => some "suspicious"
  | .fatalError _ => some "error"
  | _ => none

/-- The `details` field of the serialized body, when present. -/
def RespBody.detailsField : RespBody → Option String
  | .verdict r _ _ => some r.details
  | .videoTooLarge _ => some videoTooLargeDetails
  | .fatalError _ => some fatalDetails
  | _ => none

/-- An HTTP response: status code plus the JSON body. -/
structure Response where
  status : Nat
  body : RespBody
deriving Repr, DecidableEq

/-- Result of the handler's big `try` block: an early `return new
Response(...)`, or a thrown error (caught by the outer `catch`). -/
inductive TryResult where
  | respond (resp : Response)
  | thrown (msg : String)
deriving Repr, DecidableEq

/-- The credential failover loop.  Each iteration runs one `try` body:
the search query is built from `content.substring(0, 500)` — when
`content` is absent this throws before any network call, so the
iteration is caught and skipped without a fetch; otherwise one fetch is
issued for the current key.  A thrown fetch, a non-ok response, or an
ok response whose body read throws, moves on to the next key; the first
ok response whose body reads successfully stores the results (`results`
field, or `[]` when absent), records the 1-indexed rank in the
switch-scoped `apiKeyUsed`, and breaks. -/
def searchLoop (fetch : Nat → Outcome SearchResp) (hasContent : Bool) :
    List String → Nat → List Call × Option (List EvidenceItem × Nat)
  | [], _ => ([], none)
  | _key :: rest, i =>
    if hasContent then
      match fetch i with
      | .ret resp =>
          if resp.ok then
            match resp.results with
            | .ret rs => ([Call.searchFetch i], some (rs.getD [], i + 1))
            | .thrown _ =>
                let (t, r) := searchLoop fetch hasContent rest (i + 1)
                (Call.searchFetch i :: t, r)
          else
            let (t, r) := searchLoop fetch hasContent rest (i + 1)
            (Call.searchFetch i :: t, r)
      | .thrown _ =>
          let (t, r) := searchLoop fetch hasContent rest (i + 1)
          (Call.searchFetch i :: t, r)
    else
      searchLoop fetch hasContent rest (i + 1)

/-- Outcome of the `text` switch case that flows past it: the gathered
search results and the switch-scoped `apiKeyUsed` (1-indexed rank of the
succeeding key).  This local declaration shadows the function-scoped
`apiKeyUsed` variable, which is the one the response assembly reads. -/
structure TextOut where
  searchResults : List EvidenceItem
  apiKeyUsed : Nat
deriving Repr, DecidableEq

/-- Result of one switch case: an early response, a thrown error, or
fall-through to the model call. -/
inductive Flow (α : Type) where
  | respond (resp : Response)
  | thrown (msg : String)
  | next (a : α)
deriving Repr, DecidableEq

/-- The `text` switch case: configuration guard on the key list, then
the failover loop; exhaustion (no key succeeded) throws. -/
def textCase (fetch : Nat → Outcome SearchResp) (content : Option String)
    (keys : List String) : List Call × Flow TextOut :=
  if keys.length = 0 then
    ([], Flow.thrown "No Search1API keys configured")
  else
    match searchLoop fetch content.isSome keys 0 with
    | (t, some (results, rank)) =>
        (t, Flow.next { searchResults := results, apiKeyUsed := rank })
    | (t, none) =>
        (t, Flow.thrown "Failed to verify article - all API keys exhausted")

/-- `fileData.split(',')[1] || fileData`: the second comma-separated
segment of the data URI, or (when it is absent or empty, both falsy)
the whole string. -/
def dataUriPayload (fileData : String) : String :=
  match (fileData.data.splitOn ',').get? 1 with
  | some s => if s = [] then fileData else String.mk s
  | none => fileData

/-- `Math.ceil(payload.length * 0.75)`: the decoded byte estimate of a
base64 payload (payloads are ASCII, so the JS UTF-16 length equals the
codepoint length used here). -/
def base64SizeBytes (payload : String) : Nat :=
  (3 * payload.length + 3) / 4

/-- The fixed video size threshold (bytes). -/
def maxVideoSize : Nat := 2000000

/-- The fixed row inserted on the oversized-video path. -/
def videoRow (user : User) : AnalysisRow :=
  { user_id := user.id
    content_type := "video"
    authenticity_score := 50
    detailed_analysis := "Video file is too large for detailed analysis. Please use a shorter clip or lower resolution."
    manipulation_indicators := []
    content_preview := "video analysis (file too large)" }

/-- The `video` switch case size check: when the decoded frame size
exceeds the threshold, insert the fixed degraded row — this insert is
not guarded by a local try/catch, so a thrown insert propagates to the
outer catch; its `error` field is not even destructured — and respond
200 immediately with `analysisId := insertData?.id`.  Otherwise fall
through to the model call. -/
def videoCase (insertVideo : DbResult) (user : User) (fileData : String) :
    List Call × Flow Unit :=
  if base64SizeBytes (dataUriPayload fileData) > maxVideoSize then
    match insertVideo with
    | .thrown msg => ([Call.dbInsert (videoRow user)], Flow.thrown msg)
    | .ret _error dataId =>
        ([Call.dbInsert (videoRow user)],
         Flow.respond { status := 200, body := RespBody.videoTooLarge dataId })
  else
    ([], Flow.next ())

/-- The single model-gateway call and its failure classification:
429 and 402 return their dedicated error responses; any other non-ok
status throws a diagnostic; a successful response yields the raw
free-text content of the first choice (reading which may throw). -/
def aiPhase (ai : AIResult) : Flow String :=
  match ai with
  | .thrown msg => Flow.thrown msg
  | .httpError status errorText =>
      if status = 429 then
        Flow.respond { status := 429,
                       body := RespBody.errorOnly "Rate limit exceeded. Please try again later." }
      else if status = 402 then
        Flow.respond { status := 402,
                       body := RespBody.errorOnly "Credits depleted. Please add more credits to continue." }
      else
        Flow.thrown ("AI Gateway error: " ++ errorText)
  | .success c =>
      match c with
      | .thrown msg => Flow.thrown msg
      | .ret content => Flow.next content

/-- `contentPreview`: the first 200 characters of the content for text
requests with truthy content, else the content type plus " analysis". -/
def contentPreviewOf (contentType : String) (content : Option String) : String :=
  match content with
  | some c =>
      if contentType = "text" ∧ c ≠ "" then c.take 200
      else contentType ++ " analysis"
  | none => contentType ++ " analysis"

/-- The row the main path passes to the `analysis_results` insert:
the extracted result's score, details and indicators (defaulted to
`[]`), with the computed content preview. -/
def mainRow (user : User) (contentType : String) (content : Option String)
    (result : ModelOutput) : AnalysisRow :=
  { user_id := user.id
    content_type := contentType
    authenticity_score := result.authenticity
    detailed_analysis := result.details
    manipulation_indicators := result.manipulationIndicators.getD []
    content_preview := contentPreviewOf contentType content }

/-- The guarded main-path insert: the row is built from the extracted
result; a `dbError` result or a thrown exception is caught and
swallowed, leaving `analysisId` null; on success `analysisId` is
`insertData?.id`. -/
def persistPhase (insertMain : DbResult) (user : User) (contentType : String)
    (content : Option String) (result : ModelOutput) : List Call × Option Nat :=
  let row : AnalysisRow := mainRow user contentType content result
  match insertMain with
  | .thrown _ => ([Call.dbInsert row], none)
  | .ret error dataId => ([Call.dbInsert row], if error then none else dataId)

/-- Response assembly: spread the result, add `analysisId`, and add
`apiKeyUsed` only for text content when the function-scoped variable is
defined.  The variable passed here is the one declared before the
switch; the text case assigned only its own shadowing declaration. -/
def assembleResponse (result : ModelOutput) (analysisId : Option Nat)
    (contentType : String) (apiKeyUsedOuter : Option Nat) : Response :=
  { status := 200,
    body := RespBody.verdict result analysisId
      (if contentType = "text" ∧ apiKeyUsedOuter.isSome then apiKeyUsedOuter else none) }

/-- The shared tail after the switch: model call, extraction, guarded
persistence, response assembly. -/
def mainTail (aiFetch : AIResult) (jsonDecode : String → Option ModelOutput)
    (insertMain : DbResult) (user : User) (contentType : String)
    (content : Option String) (apiKeyUsedOuter : Option Nat) :
    List Call × TryResult :=
  match aiPhase aiFetch with
  | Flow.thrown msg => ([Call.aiGateway], TryResult.thrown msg)
  | Flow.respond r => ([Call.aiGateway], TryResult.respond r)
  | Flow.next aiResponse =>
      let result := extractResult jsonDecode aiResponse
      let (t2, analysisId) := persistPhase insertMain user contentType content result
      (Call.aiGateway :: t2,
       TryResult.respond (assembleResponse result analysisId contentType apiKeyUsedOuter))

/-- The body of the handler's outer `try`: parse the body, check the
model-gateway key for truthiness (absent or empty both throw), check
the Authorization header for truthiness (absent or empty both give the
401), resolve the user, load the feedback learnings, branch on the
content type (the `!fileData` guards likewise reject an absent or empty
payload, with the text failover loop and the video size short-circuit),
then run the shared tail.  The function-scoped `apiKeyUsed` starts
`undefined` and — because the text case declares its own shadowing
`apiKeyUsed` — is never assigned. -/
def serveCore (reqBody : Outcome RequestBody) (lovableApiKey : Option String)
    (authHeader : Option String) (getUserRes : Outcome GetUserRes)
    (search1ApiKey : Option String) (searchFetch : Nat → Outcome SearchResp)
    (aiFetch : AIResult) (jsonDecode : String → Option ModelOutput)
    (insertVideo : DbResult) (insertMain : DbResult) : List Call × TryResult :=
  match reqBody with
  | .thrown msg => ([], TryResult.thrown msg)
  | .ret body =>
    match lovableApiKey with
    | none => ([], TryResult.thrown "LOVABLE_API_KEY is not configured")
    | some lovable =>
      if lovable = "" then ([], TryResult.thrown "LOVABLE_API_KEY is not configured")
      else
      match authHeader with
      | none =>
          ([], TryResult.respond
                 { status := 401, body := RespBody.errorOnly "Authentication required" })
      | some auth =>
        if auth = "" then
          ([], TryResult.respond
                 { status := 401, body := RespBody.errorOnly "Authentication required" })
        else
        match getUserRes with
        | .thrown msg => ([Call.getUser], TryResult.thrown msg)
        | .ret gu =>
          match gu.error, gu.user with
          | false, some user =>
            let apiKeyUsedOuter : Option Nat := none
            let pre : List Call := [Call.getUser, Call.feedbackRead]
            let keys := search1ApiKeys search1ApiKey
            if body.contentType = "text" then
              let (t1, f) := textCase searchFetch body.content keys
              match f with
              | Flow.thrown msg => (pre ++ t1, TryResult.thrown msg)
              | Flow.respond r => (pre ++ t1, TryResult.respond r)
              | Flow.next _out =>
                  let (t2, r) :=
                    mainTail aiFetch jsonDecode insertMain user "text" body.content
                      apiKeyUsedOuter
                  (pre ++ t1 ++ t2, r)
            else if body.contentType = "image" then
              match body.fileData with
              | none => (pre, TryResult.thrown "Image data is required")
              | some fd =>
                  if fd = "" then (pre, TryResult.thrown "Image data is required")
                  else
                  let (t2, r) :=
                    mainTail aiFetch jsonDecode insertMain user "image" body.content
                      apiKeyUsedOuter
                  (pre ++ t2, r)
            else if body.contentType = "audio" then
              match body.fileData with
              | none => (pre, TryResult.thrown "Audio data is required")
              | some fd =>
                  if fd = "" then (pre, TryResult.thrown "Audio data is required")
                  else
                  let (t2, r) :=
                    mainTail aiFetch jsonDecode insertMain user "audio" body.content
                      apiKeyUsedOuter
                  (pre ++ t2, r)
            else if body.contentType = "video" then
              match body.fileData with
              | none => (pre, TryResult.thrown "Video data is required")
              | some fd =>
                  if fd = "" then (pre, TryResult.thrown "Video data is required")
                  else
                  let (tv, fv) := videoCase insertVideo user fd
                  match fv with
                  | Flow.thrown msg => (pre ++ tv, TryResult.thrown msg)
                  | Flow.respond r => (pre ++ tv, TryResult.respond r)
                  | Flow.next _ =>
                      let (t2, r) :=
                        mainTail aiFetch jsonDecode insertMain user "video" body.content
                          apiKeyUsedOuter
                      (pre ++ tv ++ t2, r)
            else (pre, TryResult.thrown "Invalid content type")
          | _, _ =>
              ([Call.getUser],
               TryResult.respond
                 { status := 401, body := RespBody.errorOnly "Invalid authentication" })

def serveTry (w : World) (req : Request) : List Call × TryResult :=
  serveCore req.body w.lovableApiKey req.authHeader w.getUser w.search1ApiKey
    w.searchFetch w.aiFetch w.jsonDecode w.insertVideo w.insertMain

/-- The outer `catch`: an early response passes through; any thrown
error becomes the structured 500 body (its message in `error`,
authenticity 0, status "error", fixed details text). -/
def serveCatch (p : List Call × TryResult) : List Call × Response :=
  match p with
  | (t, TryResult.respond r) => (t, r)
  | (t, TryResult.thrown msg) => (t, { status := 500, body := RespBody.fatalError msg })

/-- The full handler: the CORS preflight answer, then the `try` body
wrapped in the outer `catch`. -/
def serve (w : World) (req : Request) : List Call × Response :=
  if req.method = "OPTIONS" then
    ([], { status := 200, body := RespBody.empty })
  else
    serveCatch (serveTry w req)

/-- Whether the attempt for credential index `i` succeeds: the fetch
returns (does not throw) with an ok response whose body also reads
without throwing. -/
def attemptOk (fetch : Nat → Outcome SearchResp) (i : Nat) : Bool :=
  match fetch i with
  | .ret resp =>
      match resp.results with
      | .ret _ => resp.ok
      | .thrown _ => false
  | .thrown _ => false

theorem range_map_shift {α : Type} (f : Nat → α) (i n : Nat) :
    (List.range (n + 1)).map (fun k => f (i + k)) =
      f i :: (List.range n).map (fun k => f ((i + 1) + k)) := by
  rw [List.range_succ_eq_map, List.map_cons, List.map_map]
  refine congrArg₂ _ (congrArg f (Nat.add_zero i)) ?_
  apply List.map_congr_left
  intro a _
  show f (i + (a + 1)) = f ((i + 1) + a)
  exact congrArg f (by omega)

/-- Without content, every loop iteration throws at the query
construction before any network call: no fetch happens, no key
succeeds. -/
theorem searchLoop_noContent (fetch : Nat → Outcome SearchResp) :
    ∀ (keys : List String) (i : Nat),
      searchLoop fetch false keys i = ([], none) := by
  intro keys
  induction keys with
  | nil => intro i; rfl
  | cons key rest ih => intro i; simpa [searchLoop] using ih (i + 1)

/-- When every remaining credential fails, the loop attempts each of
them exactly once, in order, and ends unsuccessful. -/
theorem searchLoop_all_fail (fetch : Nat → Outcome SearchResp) :
    ∀ (keys : List String) (i : Nat),
      (∀ k, k < keys.length → attemptOk fetch (i + k) = false) →
      searchLoop fetch true keys i =
        ((List.range keys.length).map (fun k => Call.searchFetch (i + k)), none) := by
  intro keys
  induction keys with
  | nil => intro i _; rfl
  | cons key rest ih =>
      intro i h
      have h0 : attemptOk fetch i = false := by
        have := h 0 (by simp)
        simpa using this
      have hrest : ∀ k, k < rest.length → attemptOk fetch ((i + 1) + k) = false := by
        intro k hk
        have := h (k + 1) (by simpa using Nat.succ_lt_succ hk)
        simpa [Nat.add_comm, Nat.add_assoc, Nat.add_left_comm] using this
      have hshift := range_map_shift (fun k => Call.searchFetch k) i rest.length
      cases hf : fetch i with
      | thrown m =>
          simp only [searchLoop, if_pos rfl, hf]
          rw [ih (i + 1) hrest, List.length_cons, hshift]
          simp
      | ret resp =>
          cases hres : resp.results with
          | thrown m2 =>
              by_cases hok : resp.ok = true
              · simp only [searchLoop, if_pos rfl, hf, hok, if_true, hres]
                rw [ih (i + 1) hrest, List.length_cons, hshift]
              · rw [Bool.not_eq_true] at hok
                simp only [searchLoop, if_pos rfl, hf, hok, Bool.false_eq_true,
                  if_false]
                rw [ih (i + 1) hrest, List.length_cons, hshift]
                simp
          | ret rs =>
              have hok : resp.ok = false := by
                simp only [attemptOk, hf, hres] at h0; exact h0
              simp only [searchLoop, if_pos rfl, hf, hok, Bool.false_eq_true,
                if_false]
              rw [ih (i + 1) hrest, List.length_cons, hshift]
              simp

/-- When credential `j` (0-indexed, within range) is the first whose
attempt succeeds, the loop attempts exactly credentials `0..j`, once
each in order, stops there, and returns that attempt's results together
with the switch-scoped rank `j + 1`. -/
theorem searchLoop_first_success (fetch : Nat → Outcome SearchResp) :
    ∀ (keys : List String) (i j : Nat) (resp : SearchResp)
      (rs : Option (List EvidenceItem)),
      j < keys.length →
      (∀ k, k < j → attemptOk fetch (i + k) = false) →
      fetch (i + j) = .ret resp → resp.ok = true →
      resp.results = Outcome.ret rs →
      searchLoop fetch true keys i =
        ((List.range (j + 1)).map (fun k => Call.searchFetch (i + k)),
         some (rs.getD [], (i + j) + 1)) := by
  intro keys
  induction keys with
  | nil => intro i j resp rs hj; exact absurd hj (by simp)
  | cons key rest ih =>
      intro i j resp rs hj hfail hfetch hok hres
      cases j with
      | zero =>
          have hfi : fetch i = .ret resp := by simpa using hfetch
          simp [searchLoop, hfi, hok, hres, List.range_succ]
      | succ jp =>
          have h0 : attemptOk fetch i = false := by
            have := hfail 0 (Nat.succ_pos jp)
            simpa using this
          have hfailShift : ∀ k, k < jp → attemptOk fetch ((i + 1) + k) = false := by
            intro k hk
            have := hfail (k + 1) (Nat.succ_lt_succ hk)
            simpa [Nat.add_comm, Nat.add_assoc, Nat.add_left_comm] using this
          have hfetchShift : fetch ((i + 1) + jp) = .ret resp := by
            have : (i + 1) + jp = i + (jp + 1) := by omega
            rw [this]; exact hfetch
          have hrec := ih (i + 1) jp resp rs
            (by simpa using Nat.lt_of_succ_lt_succ hj)
            hfailShift hfetchShift hok hres
          have hshift := range_map_shift (fun k => Call.searchFetch k) i (jp + 1)
          have harith : ((i + 1) + jp) + 1 = (i + (jp + 1)) + 1 := by omega
          cases hf : fetch i with
          | thrown m =>
              simp only [searchLoop, if_pos rfl, hf]
              rw [hrec, hshift, harith]
              simp
          | ret r0 =>
              cases hres0 : r0.results with
              | thrown m2 =>
                  by_cases hok0 : r0.ok = true
                  · simp only [searchLoop, if_pos rfl, hf, hok0, if_true, hres0]
                    rw [hrec, hshift, harith]
                  · rw [Bool.not_eq_true] at hok0
                    simp only [searchLoop, if_pos rfl, hf, hok0, Bool.false_eq_true,
                      if_false]
                    rw [hrec, hshift, harith]
                    simp
              | ret rs0 =>
                  have hok0 : r0.ok = false := by
                    simp only [attemptOk, hf, hres0] at h0; exact h0
                  simp only [searchLoop, if_pos rfl, hf, hok0, Bool.false_eq_true,
                    if_false]
                  rw [hrec, hshift, harith]
                  simp

/-- Every event the failover loop records is a search fetch. -/
theorem searchLoop_calls (fetch : Nat → Outcome SearchResp) (hasContent : Bool) :
    ∀ (keys : List String) (i : Nat) (e : Call),
      e ∈ (searchLoop fetch hasContent keys i).1 → ∃ j, e = Call.searchFetch j := by
  intro keys
  induction keys with
  | nil =>
      intro i e he
      cases hasContent <;> simp [searchLoop] at he
  | cons key rest ih =>
      intro i e he
      cases hasContent with
      | false =>
          exact ih (i + 1) e (by simpa [searchLoop] using he)
      | true =>
          rw [searchLoop] at he
          cases hf : fetch i with
          | thrown m =>
              rw [hf] at he
              simp only [if_pos rfl] at he
              rcases List.mem_cons.mp (by simpa using he) with h | h
              · exact ⟨i, h⟩
              · exact ih (i + 1) e (by simpa using h)
          | ret resp =>
              rw [hf] at he
              cases hok : resp.ok with
              | true =>
                  cases hres : resp.results with
                  | ret rs =>
                      simp only [hok, hres, if_pos rfl] at he
                      simp at he
                      exact ⟨i, he⟩
                  | thrown m2 =>
                      simp only [hok, hres, if_pos rfl] at he
                      rcases List.mem_cons.mp (by simpa using he) with h | h
                      · exact ⟨i, h⟩
                      · exact ih (i + 1) e (by simpa using h)
              | false =>
                  simp only [hok, Bool.false_eq_true, if_false, if_pos rfl] at he
                  rcases List.mem_cons.mp (by simpa using he) with h | h
                  · exact ⟨i, h⟩
                  · exact ih (i + 1) e (by simpa using h)

/-! ### Sample worlds and requests used by witnesses -/

/-- A benign world: configured keys, successful authentication, failing
search transport, unused gateway, rejecting decoder, clean inserts. -/
def wBase : World :=
  { lovableApiKey := some "lk"
    search1ApiKey := none
    getUser := Outcome.ret { user := some { id := "u1" }, error := false }
    feedbackLearnings := ""
    searchFetch := fun _ => Outcome.thrown "network unreachable"
    aiFetch := AIResult.thrown "unused"
    jsonDecode := fun _ => none
    insertVideo := DbResult.ret false none
    insertMain := DbResult.ret false none }

/-- A request with no Authorization header. -/
def reqNoAuth : Request :=
  { method := "POST"
    body := Outcome.ret { contentType := "text", content := some "article", fileData := none }
    authHeader := none }

/-! ### C2 — the extractor's degraded fallback -/

/-- C2: for every raw model text in which the brace scan finds nothing,
or whose extracted object fails to decode, the extractor returns exactly
the degraded result: authenticity 50, status "suspicious", details the
raw text verbatim (and, being a total function, it propagates no parse
exception). -/
theorem extractor_degraded_fallback (jsonDecode : String → Option ModelOutput)
    (s : String)
    (h : jsonMatch s = none ∨ ∀ m, jsonMatch s = some m → jsonDecode m = none) :
    extractResult jsonDecode s =
      { authenticity := 50, status := "suspicious", details := s,
        manipulationIndicators := none } := by
  unfold extractResult
  cases hm : jsonMatch s with
  | none => rfl
  | some m =>
      rcases h with h0 | hf
      · rw [hm] at h0; simp at h0
      · simp only [hf m hm]

/-- Witness for C2 at a concrete brace-free model text and a decoder
that always fails. -/
theorem extractor_degraded_fallback_witness :
    extractResult (fun _ => none) "The image appears authentic." =
      { authenticity := 50, status := "suspicious",
        details := "The image appears authentic.",
        manipulationIndicators := none } :=
  extractor_degraded_fallback (fun _ => none) "The image appears authentic."
    (Or.inl (by decide))

/-! ### C10 — the key list is never empty -/

/-- C10: whatever the SEARCH1API_KEY environment variable holds (absent,
empty, or set), the credential list keeps the three hardcoded keys, so
it has at least three entries, and the text case always takes the
failover-loop branch: the "No Search1API keys configured" guard is
unreachable. -/
theorem config_guard_unreachable :
    ∀ envKey : Option String,
      3 ≤ (search1ApiKeys envKey).length ∧
      ∀ (fetch : Nat → Outcome SearchResp) (content : Option String),
        textCase fetch content (search1ApiKeys envKey) =
          (match searchLoop fetch content.isSome (search1ApiKeys envKey) 0 with
           | (t, some (results, rank)) =>
               (t, Flow.next { searchResults := results, apiKeyUsed := rank })
           | (t, none) =>
               (t, Flow.thrown "Failed to verify article - all API keys exhausted")) := by
  intro envKey
  refine ⟨search1ApiKeys_length envKey, ?_⟩
  intro fetch content
  have h : ¬(search1ApiKeys envKey).length = 0 := by
    have := search1ApiKeys_length envKey; omega
  simp only [textCase, if_neg h]

/-! ### C7 — missing Authorization header -/

/-- C7: a request whose Authorization header is absent (with a parsable
body and the gateway key configured non-empty, so that neither earlier
throw fires) gets the 401 "Authentication required" body, and the
recorded call trace is empty: no identity, feedback-store,
evidence-search, model-gateway, or datastore call is made. -/
theorem auth_missing_401 (w : World) (req : Request) (b : RequestBody) (key : String)
    (hm : req.method ≠ "OPTIONS")
    (hb : req.body = Outcome.ret b)
    (hk : w.lovableApiKey = some key)
    (hknz : key ≠ "")
    (ha : req.authHeader = none) :
    serve w req =
      ([], { status := 401, body := RespBody.errorOnly "Authentication required" }) := by
  unfold serve serveCatch
  rw [if_neg hm]
  unfold serveTry serveCore
  simp only [hb, hk, ha, if_neg hknz]

/-- Witness for C7 at a concrete world and request. -/
theorem auth_missing_401_witness :
    serve wBase reqNoAuth =
      ([], { status := 401, body := RespBody.errorOnly "Authentication required" }) :=
  auth_missing_401 wBase reqNoAuth
    { contentType := "text", content := some "article", fileData := none } "lk"
    (by decide) rfl rfl (by decide) rfl

/-! ### C3 — strict in-order failover, one attempt per credential -/

/-- C3: the failover loop tries the credentials strictly in list order
with exactly one fetch per credential.  (1) If credential `j` (0-based)
is the first to succeed, exactly credentials `0..j` are attempted, once
each in order, the loop stops there — no later credential is ever
attempted — and that credential's results are returned with the
1-indexed rank `j + 1`.  (2) If every credential fails (thrown transport
error or non-ok status), each is attempted exactly once and the case
throws the exhaustion error.  (3) At the handler level, exhaustion on a
text request surfaces as the fatal 500 body. -/
theorem failover_policy :
    (∀ (fetch : Nat → Outcome SearchResp) (keys : List String) (content : String)
        (j : Nat) (resp : SearchResp) (rs : Option (List EvidenceItem)),
        j < keys.length →
        (∀ k, k < j → attemptOk fetch k = false) →
        fetch j = Outcome.ret resp → resp.ok = true →
        resp.results = Outcome.ret rs →
        textCase fetch (some content) keys =
          ((List.range (j + 1)).map Call.searchFetch,
           Flow.next { searchResults := rs.getD [], apiKeyUsed := j + 1 })) ∧
    (∀ (fetch : Nat → Outcome SearchResp) (keys : List String) (content : String),
        keys ≠ [] →
        (∀ k, k < keys.length → attemptOk fetch k = false) →
        textCase fetch (some content) keys =
          ((List.range keys.length).map Call.searchFetch,
           Flow.thrown "Failed to verify article - all API keys exhausted")) ∧
    (∀ (w : World) (req : Request) (b : RequestBody) (c key auth : String) (u : User),
        req.method ≠ "OPTIONS" →
        req.body = Outcome.ret b →
        b.contentType = "text" →
        b.content = some c →
        w.lovableApiKey = some key →
        key ≠ "" →
        req.authHeader = some auth →
        auth ≠ "" →
        w.getUser = Outcome.ret { user := some u, error := false } →
        (∀ k, k < (search1ApiKeys w.search1ApiKey).length →
          attemptOk w.searchFetch k = false) →
        serve w req =
          ([Call.getUser, Call.feedbackRead] ++
             (List.range (search1ApiKeys w.search1ApiKey).length).map Call.searchFetch,
           { status := 500,
             body := RespBody.fatalError
               "Failed to verify article - all API keys exhausted" })) := by
  have hsucc : ∀ (fetch : Nat → Outcome SearchResp) (keys : List String)
      (content : String) (j : Nat) (resp : SearchResp)
      (rs : Option (List EvidenceItem)),
      j < keys.length →
      (∀ k, k < j → attemptOk fetch k = false) →
      fetch j = Outcome.ret resp → resp.ok = true →
      resp.results = Outcome.ret rs →
      textCase fetch (some content) keys =
        ((List.range (j + 1)).map Call.searchFetch,
         Flow.next { searchResults := rs.getD [], apiKeyUsed := j + 1 }) := by
    intro fetch keys content j resp rs hj hfail hfetch hok hres
    have hlen : ¬keys.length = 0 := by omega
    have hloop := searchLoop_first_success fetch keys 0 j resp rs hj
      (by intro k hk; simpa using hfail k hk) (by simpa using hfetch) hok hres
    unfold textCase
    rw [if_neg hlen]
    simp only [Option.isSome_some, hloop, Nat.zero_add]
  have hfailAll : ∀ (fetch : Nat → Outcome SearchResp) (keys : List String)
      (content : String),
      keys ≠ [] →
      (∀ k, k < keys.length → attemptOk fetch k = false) →
      textCase fetch (some content) keys =
        ((List.range keys.length).map Call.searchFetch,
         Flow.thrown "Failed to verify article - all API keys exhausted") := by
    intro fetch keys content hne hfail
    have hlen : ¬keys.length = 0 := by
      intro h0; exact hne (List.length_eq_zero.mp h0)
    have hloop := searchLoop_all_fail fetch keys 0
      (by intro k hk; simpa using hfail k hk)
    unfold textCase
    rw [if_neg hlen]
    simp only [Option.isSome_some, hloop, Nat.zero_add]
  refine ⟨hsucc, hfailAll, ?_⟩
  intro w req b c key auth u hm hb hct hc hk hknz ha hanz hgu hfail
  have htc := hfailAll w.searchFetch (search1ApiKeys w.search1ApiKey) c
    (search1ApiKeys_ne_nil _) hfail
  unfold serve serveCatch
  rw [if_neg hm]
  unfold serveTry serveCore
  simp only [hb, hk, ha, hgu, hct, hc, if_neg hknz, if_neg hanz,
    if_pos (show ("text" : String) = "text" from rfl)]
  simp only [if_true, htc]

/-- A search result used in concrete witnesses. -/
def itemW : EvidenceItem := { title := "t", url := "u", snippet := "s" }

/-- A credential-indexed search behaviour: the first key fails with a
non-ok status, the second succeeds, any later key would throw. -/
def fetchW : Nat → Outcome SearchResp := fun i =>
  if i = 0 then
    Outcome.ret { ok := false, status := 500, results := Outcome.ret none }
  else if i = 1 then
    Outcome.ret { ok := true, status := 200, results := Outcome.ret (some [itemW]) }
  else Outcome.thrown "x"

/-- An authenticated text request. -/
def reqTextAuth : Request :=
  { method := "POST"
    body := Outcome.ret { contentType := "text", content := some "article", fileData := none }
    authHeader := some "Bearer tok" }

/-- Witness for C3: with `[fail, succeed, untouched]` the loop stops at
rank 2; with two failing keys it exhausts; at the handler level an
all-fail world answers the fatal 500. -/
theorem failover_policy_witness :
    textCase fetchW (some "q") ["a", "b", "c"] =
        ((List.range 2).map Call.searchFetch,
         Flow.next { searchResults := [itemW], apiKeyUsed := 2 }) ∧
    textCase (fun _ => Outcome.thrown "down") (some "q") ["a", "b"] =
        ((List.range 2).map Call.searchFetch,
         Flow.thrown "Failed to verify article - all API keys exhausted") ∧
    serve wBase reqTextAuth =
        ([Call.getUser, Call.feedbackRead] ++
           (List.range (search1ApiKeys wBase.search1ApiKey).length).map Call.searchFetch,
         { status := 500,
           body := RespBody.fatalError
             "Failed to verify article - all API keys exhausted" }) := by
  refine ⟨?_, ?_, ?_⟩
  · have hfail1 : ∀ k, k < 1 → attemptOk fetchW k = false := by
      intro k hk
      have hk0 : k = 0 := by omega
      rw [hk0]
      decide
    exact failover_policy.1 fetchW ["a", "b", "c"] "q" 1
      { ok := true, status := 200, results := Outcome.ret (some [itemW]) }
      (some [itemW])
      (by decide) hfail1 (by decide) rfl rfl
  · exact failover_policy.2.1 (fun _ => Outcome.thrown "down") ["a", "b"] "q"
      (by decide) (fun _ _ => rfl)
  · exact failover_policy.2.2 wBase reqTextAuth
      { contentType := "text", content := some "article", fileData := none }
      "article" "lk" "Bearer tok" { id := "u1" }
      (by decide) rfl rfl rfl rfl (by decide) rfl (by decide) rfl (fun _ _ => rfl)

/-! ### C4 — the oversized-video short-circuit -/

theorem dataUriPayload_no_comma (fd : String) (h : ',' ∉ fd.data) :
    dataUriPayload fd = fd := by
  have hs : fd.data.splitOn ',' = [fd.data] := by
    simp only [List.splitOn]
    refine List.splitOnP_eq_single _ _ ?_
    intro x hx
    simp only [beq_iff_eq]
    intro he
    exact h (he ▸ hx)
  unfold dataUriPayload
  rw [hs]
  rfl

/-- A comma-free base64 payload of 2666668 characters, decoding to an
estimated 2000001 bytes — just over the 2 MB threshold. -/
def fdBig : String := String.mk (List.replicate 2666668 'a')

theorem fdBig_oversized : base64SizeBytes (dataUriPayload fdBig) > maxVideoSize := by
  have hmem : ',' ∉ fdBig.data := by
    intro hmem
    rw [show fdBig.data = List.replicate 2666668 'a' from rfl,
        List.mem_replicate] at hmem
    exact absurd hmem.2 (by decide)
  have hlen : fdBig.length = 2666668 := by
    show (List.replicate 2666668 (Char.ofNat 97)).length = 2666668
    rw [List.length_replicate]
  rw [dataUriPayload_no_comma fdBig hmem]
  have h1 : base64SizeBytes fdBig = (3 * (2666668 : Nat) + 3) / 4 := by
    rw [base64SizeBytes, hlen]
  rw [h1, show maxVideoSize = 2000000 from rfl]
  decide

/-- The big payload is in particular not the empty string, so it passes
the truthiness guard. -/
theorem fdBig_ne_empty : fdBig ≠ "" := by
  intro h
  have hlen : fdBig.length = 2666668 := by
    show (List.replicate 2666668 (Char.ofNat 97)).length = 2666668
    rw [List.length_replicate]
  rw [h] at hlen
  have h0 : ("" : String).length = 0 := rfl
  omega

/-- The whole oversized-video path, for any behaviour of the unguarded
insert: the model gateway is never called, the fixed degraded row is the
only insert, and the response is the fixed 200 body when the insert
returns — or the fatal 500 when it throws. -/
theorem serve_video_oversized (w : World) (req : Request) (b : RequestBody)
    (fd key auth : String) (u : User)
    (hm : req.method ≠ "OPTIONS")
    (hb : req.body = Outcome.ret b)
    (hct : b.contentType = "video")
    (hfd : b.fileData = some fd)
    (hfdnz : fd ≠ "")
    (hsize : base64SizeBytes (dataUriPayload fd) > maxVideoSize)
    (hk : w.lovableApiKey = some key)
    (hknz : key ≠ "")
    (ha : req.authHeader = some auth)
    (hanz : auth ≠ "")
    (hgu : w.getUser = Outcome.ret { user := some u, error := false }) :
    serve w req =
      ([Call.getUser, Call.feedbackRead, Call.dbInsert (videoRow u)],
       match w.insertVideo with
       | DbResult.thrown msg => { status := 500, body := RespBody.fatalError msg }
       | DbResult.ret _e dataId =>
           { status := 200, body := RespBody.videoTooLarge dataId }) := by
  unfold serve serveCatch
  rw [if_neg hm]
  unfold serveTry serveCore videoCase
  cases hi : w.insertVideo with
  | thrown msg =>
      simp [hb, hk, ha, hgu, hct, hfd, hi, hsize, hfdnz, hknz, hanz]
  | ret e dataId =>
      simp [hb, hk, ha, hgu, hct, hfd, hi, hsize, hfdnz, hknz, hanz]

/-- C4: a video request whose decoded media size exceeds the fixed
threshold (with the usual request/auth hypotheses, and a returning
insert) never invokes the model gateway — the trace holds no
`aiGateway` call — persists exactly the fixed degraded row (score 50,
fixed limitation text), and immediately answers 200 with authenticity
50, status "suspicious" and the fixed size-limitation message. -/
theorem video_oversized_short_circuit (w : World) (req : Request) (b : RequestBody)
    (fd key auth : String) (u : User) (e : Bool) (oid : Option Nat)
    (hm : req.method ≠ "OPTIONS")
    (hb : req.body = Outcome.ret b)
    (hct : b.contentType = "video")
    (hfd : b.fileData = some fd)
    (hfdnz : fd ≠ "")
    (hsize : base64SizeBytes (dataUriPayload fd) > maxVideoSize)
    (hk : w.lovableApiKey = some key)
    (hknz : key ≠ "")
    (ha : req.authHeader = some auth)
    (hanz : auth ≠ "")
    (hgu : w.getUser = Outcome.ret { user := some u, error := false })
    (hi : w.insertVideo = DbResult.ret e oid) :
    serve w req =
      ([Call.getUser, Call.feedbackRead, Call.dbInsert (videoRow u)],
       { status := 200, body := RespBody.videoTooLarge oid }) ∧
    (videoRow u).authenticity_score = 50 ∧
    RespBody.authenticityField (RespBody.videoTooLarge oid) = some 50 ∧
    RespBody.statusField (RespBody.videoTooLarge oid) = some "suspicious" ∧
    RespBody.detailsField (RespBody.videoTooLarge oid) = some videoTooLargeDetails := by
  have h := serve_video_oversized w req b fd key auth u hm hb hct hfd hfdnz hsize
    hk hknz ha hanz hgu
  rw [hi] at h
  exact ⟨h, rfl, rfl, rfl, rfl⟩

/-- A world whose oversized-video insert succeeds with generated id 7. -/
def wVid : World := { wBase with insertVideo := DbResult.ret false (some 7) }

/-- An authenticated video request with an oversized frame. -/
def reqVideoBig : Request :=
  { method := "POST"
    body := Outcome.ret { contentType := "video", content := none, fileData := some fdBig }
    authHeader := some "Bearer tok" }

/-- Witness for C4 at a concrete oversized request. -/
theorem video_oversized_short_circuit_witness :
    serve wVid reqVideoBig =
      ([Call.getUser, Call.feedbackRead, Call.dbInsert (videoRow { id := "u1" })],
       { status := 200, body := RespBody.videoTooLarge (some 7) }) ∧
    (videoRow { id := "u1" }).authenticity_score = 50 ∧
    RespBody.authenticityField (RespBody.videoTooLarge (some 7)) = some 50 ∧
    RespBody.statusField (RespBody.videoTooLarge (some 7)) = some "suspicious" ∧
    RespBody.detailsField (RespBody.videoTooLarge (some 7)) = some videoTooLargeDetails :=
  video_oversized_short_circuit wVid reqVideoBig
    { contentType := "video", content := none, fileData := some fdBig }
    fdBig "lk" "Bearer tok" { id := "u1" } false (some 7)
    (by decide) rfl rfl rfl fdBig_ne_empty fdBig_oversized rfl (by decide) rfl
    (by decide) rfl rfl

/-! ### C5 — persistence failures and the already-computed response -/

/-- Erase the `analysisId` correlation field of a response body. -/
def stripId : RespBody → RespBody
  | RespBody.videoTooLarge _ => RespBody.videoTooLarge none
  | RespBody.verdict r _ aku => RespBody.verdict r none aku
  | b => b

/-- A response up to its `analysisId` correlation field. -/
def respStrip (r : Response) : Response :=
  { status := r.status, body := stripId r.body }

/-- `respStrip` lifted to a try-block result. -/
def tryStrip : TryResult → TryResult
  | TryResult.respond r => TryResult.respond (respStrip r)
  | t => t

/-- `respStrip` lifted to a switch-case flow. -/
def flowStrip : Flow Unit → Flow Unit
  | Flow.respond r => Flow.respond (respStrip r)
  | f => f

/-- The guarded main-path insert influences only the `analysisId`
correlation field: trace and stripped outcome are identical for any two
insert behaviours, thrown exceptions included. -/
theorem mainTail_insert_invariant (ai : AIResult) (jd : String → Option ModelOutput)
    (o1 o2 : DbResult) (u : User) (ct : String) (c : Option String)
    (aku : Option Nat) :
    (mainTail ai jd o1 u ct c aku).1 = (mainTail ai jd o2 u ct c aku).1 ∧
    tryStrip (mainTail ai jd o1 u ct c aku).2 =
      tryStrip (mainTail ai jd o2 u ct c aku).2 := by
  unfold mainTail
  cases aiPhase ai with
  | thrown m => exact ⟨rfl, rfl⟩
  | respond r => exact ⟨rfl, rfl⟩
  | next s =>
      cases o1 <;> cases o2 <;>
        simp [persistPhase, assembleResponse, tryStrip, respStrip, stripId]

/-- Two returning (non-throwing) behaviours of the unguarded video
insert give the same trace and the same stripped flow. -/
theorem videoCase_ret_invariant (e1 e2 : Bool) (id1 id2 : Option Nat) (u : User)
    (fd : String) :
    (videoCase (DbResult.ret e1 id1) u fd).1 =
      (videoCase (DbResult.ret e2 id2) u fd).1 ∧
    flowStrip (videoCase (DbResult.ret e1 id1) u fd).2 =
      flowStrip (videoCase (DbResult.ret e2 id2) u fd).2 := by
  unfold videoCase
  by_cases h : base64SizeBytes (dataUriPayload fd) > maxVideoSize
  · simp [h, flowStrip, respStrip, stripId]
  · simp [h]

/-- Varying only the main-path insert behaviour leaves the try-block's
trace and stripped outcome unchanged. -/
theorem serveCore_insertMain_invariant (rb : Outcome RequestBody)
    (lov auth : Option String) (gu : Outcome GetUserRes) (s1 : Option String)
    (fetch : Nat → Outcome SearchResp) (ai : AIResult)
    (jd : String → Option ModelOutput) (iv : DbResult) (o1 o2 : DbResult) :
    (serveCore rb lov auth gu s1 fetch ai jd iv o1).1 =
      (serveCore rb lov auth gu s1 fetch ai jd iv o2).1 ∧
    tryStrip (serveCore rb lov auth gu s1 fetch ai jd iv o1).2 =
      tryStrip (serveCore rb lov auth gu s1 fetch ai jd iv o2).2 := by
  unfold serveCore
  cases rb with
  | thrown m => exact ⟨rfl, rfl⟩
  | ret b =>
    cases lov with
    | none => exact ⟨rfl, rfl⟩
    | some lk =>
      by_cases hlk : lk = ""
      · simp [hlk]
      · simp only [if_neg hlk]
        cases auth with
        | none => exact ⟨rfl, rfl⟩
        | some ah =>
          by_cases hah : ah = ""
          · simp [hah]
          · simp only [if_neg hah]
            cases gu with
            | thrown m => exact ⟨rfl, rfl⟩
            | ret gur =>
              obtain ⟨guUser, guErr⟩ := gur
              cases guErr with
              | true => exact ⟨rfl, rfl⟩
              | false =>
                cases guUser with
                | none => exact ⟨rfl, rfl⟩
                | some u =>
                  by_cases h1 : b.contentType = "text"
                  · simp only [h1, if_pos rfl, if_true]
                    cases htc : (textCase fetch b.content (search1ApiKeys s1)).2 with
                    | thrown m => simp [htc]
                    | respond r => simp [htc]
                    | next out =>
                        simp only [htc]
                        have hmt := mainTail_insert_invariant ai jd o1 o2 u "text"
                          b.content none
                        exact ⟨by rw [hmt.1], hmt.2⟩
                  · simp only [if_neg h1]
                    by_cases h2 : b.contentType = "image"
                    · simp only [h2, if_pos rfl, if_true]
                      cases b.fileData with
                      | none => exact ⟨rfl, rfl⟩
                      | some fd =>
                          by_cases hfd0 : fd = ""
                          · simp [hfd0]
                          · simp only [if_neg hfd0]
                            have hmt := mainTail_insert_invariant ai jd o1 o2 u
                              "image" b.content none
                            exact ⟨by rw [hmt.1], hmt.2⟩
                    · simp only [if_neg h2]
                      by_cases h3 : b.contentType = "audio"
                      · simp only [h3, if_pos rfl, if_true]
                        cases b.fileData with
                        | none => exact ⟨rfl, rfl⟩
                        | some fd =>
                            by_cases hfd0 : fd = ""
                            · simp [hfd0]
                            · simp only [if_neg hfd0]
                              have hmt := mainTail_insert_invariant ai jd o1 o2 u
                                "audio" b.content none
                              exact ⟨by rw [hmt.1], hmt.2⟩
                      · simp only [if_neg h3]
                        by_cases h4 : b.contentType = "video"
                        · simp only [h4, if_pos rfl, if_true]
                          cases b.fileData with
                          | none => exact ⟨rfl, rfl⟩
                          | some fd =>
                              by_cases hfd0 : fd = ""
                              · simp [hfd0]
                              · simp only [if_neg hfd0]
                                cases hvc : (videoCase iv u fd).2 with
                                | thrown m => simp [hvc]
                                | respond r => simp [hvc]
                                | next a =>
                                    simp only [hvc]
                                    have hmt := mainTail_insert_invariant ai jd o1
                                      o2 u "video" b.content none
                                    exact ⟨by rw [hmt.1], hmt.2⟩
                        · simp [if_neg h4]

/-- Explicit form of the video case for a returning insert. -/
theorem videoCase_ret_eq (e : Bool) (id : Option Nat) (u : User) (fd : String) :
    videoCase (DbResult.ret e id) u fd =
      if base64SizeBytes (dataUriPayload fd) > maxVideoSize then
        ([Call.dbInsert (videoRow u)],
         Flow.respond { status := 200, body := RespBody.videoTooLarge id })
      else ([], Flow.next ()) := by
  unfold videoCase
  by_cases h : base64SizeBytes (dataUriPayload fd) > maxVideoSize <;> simp [h]

/-- Varying the unguarded video insert between two returning (non-
throwing) behaviours leaves the try-block's trace and stripped outcome
unchanged. -/
theorem serveCore_insertVideo_invariant (rb : Outcome RequestBody)
    (lov auth : Option String) (gu : Outcome GetUserRes) (s1 : Option String)
    (fetch : Nat → Outcome SearchResp) (ai : AIResult)
    (jd : String → Option ModelOutput) (e1 e2 : Bool) (id1 id2 : Option Nat)
    (im : DbResult) :
    (serveCore rb lov auth gu s1 fetch ai jd (DbResult.ret e1 id1) im).1 =
      (serveCore rb lov auth gu s1 fetch ai jd (DbResult.ret e2 id2) im).1 ∧
    tryStrip (serveCore rb lov auth gu s1 fetch ai jd (DbResult.ret e1 id1) im).2 =
      tryStrip (serveCore rb lov auth gu s1 fetch ai jd (DbResult.ret e2 id2) im).2 := by
  unfold serveCore
  cases rb with
  | thrown m => exact ⟨rfl, rfl⟩
  | ret b =>
    cases lov with
    | none => exact ⟨rfl, rfl⟩
    | some lk =>
      by_cases hlk : lk = ""
      · simp [hlk]
      · simp only [if_neg hlk]
        cases auth with
        | none => exact ⟨rfl, rfl⟩
        | some ah =>
          by_cases hah : ah = ""
          · simp [hah]
          · simp only [if_neg hah]
            cases gu with
            | thrown m => exact ⟨rfl, rfl⟩
            | ret gur =>
              obtain ⟨guUser, guErr⟩ := gur
              cases guErr with
              | true => exact ⟨rfl, rfl⟩
              | false =>
                cases guUser with
                | none => exact ⟨rfl, rfl⟩
                | some u =>
                  by_cases h1 : b.contentType = "text"
                  · simp only [h1, if_pos rfl, if_true]
                    cases htc : (textCase fetch b.content (search1ApiKeys s1)).2 with
                    | thrown m => simp [htc]
                    | respond r => simp [htc]
                    | next out => simp [htc]
                  · simp only [if_neg h1]
                    by_cases h2 : b.contentType = "image"
                    · simp only [h2, if_pos rfl, if_true]
                      cases b.fileData with
                      | none => simp
                      | some fd => by_cases hfd0 : fd = "" <;> simp [hfd0]
                    · simp only [if_neg h2]
                      by_cases h3 : b.contentType = "audio"
                      · simp only [h3, if_pos rfl, if_true]
                        cases b.fileData with
                        | none => simp
                        | some fd => by_cases hfd0 : fd = "" <;> simp [hfd0]
                      · simp only [if_neg h3]
                        by_cases h4 : b.contentType = "video"
                        · simp only [h4, if_pos rfl, if_true]
                          cases b.fileData with
                          | none => exact ⟨rfl, rfl⟩
                          | some fd =>
                              by_cases hfd0 : fd = ""
                              · simp [hfd0]
                              · simp only [if_neg hfd0, videoCase_ret_eq]
                                by_cases hs :
                                  base64SizeBytes (dataUriPayload fd) > maxVideoSize
                                · simp [hs, tryStrip, respStrip, stripId]
                                · simp [hs]
                        · simp [if_neg h4]

/-- The outer catch respects stripped equivalence: equal traces and
equal stripped try-results give responses with the same status and the
same body up to `analysisId`. -/
theorem serveCatch_strip (p q : List Call × TryResult)
    (h1 : p.1 = q.1) (h2 : tryStrip p.2 = tryStrip q.2) :
    (serveCatch p).1 = (serveCatch q).1 ∧
    (serveCatch p).2.status = (serveCatch q).2.status ∧
    stripId (serveCatch p).2.body = stripId (serveCatch q).2.body := by
  obtain ⟨t1, r1⟩ := p
  obtain ⟨t2, r2⟩ := q
  simp only at h1
  subst h1
  cases r1 with
  | respond x1 =>
      cases r2 with
      | respond x2 =>
          simp only [tryStrip, TryResult.respond.injEq] at h2
          have hst := congrArg Response.status h2
          have hbd := congrArg Response.body h2
          simp only [respStrip] at hst hbd
          exact ⟨rfl, hst, hbd⟩
      | thrown m2 => simp [tryStrip] at h2
  | thrown m1 =>
      cases r2 with
      | respond x2 => simp [tryStrip] at h2
      | thrown m2 =>
          simp only [tryStrip, TryResult.thrown.injEq] at h2
          subst h2
          exact ⟨rfl, rfl, rfl⟩

/-- C5 (amended): persistence is best effort up to the `analysisId`
correlation field, with one exception.  (1) Whatever the guarded
main-path insert does — returns an error, or throws — the trace, the
HTTP status, and the body up to `analysisId` are unchanged.  (2) On the
oversized-video path the same holds across any two returning insert
outcomes; a thrown video insert, however, is not caught locally (see the
counterexample). -/
theorem persistence_best_effort :
    (∀ (w : World) (req : Request) (o : DbResult),
       (serve { w with insertMain := o } req).1 = (serve w req).1 ∧
       (serve { w with insertMain := o } req).2.status = (serve w req).2.status ∧
       stripId (serve { w with insertMain := o } req).2.body =
         stripId (serve w req).2.body) ∧
    (∀ (w : World) (req : Request) (e1 e2 : Bool) (id1 id2 : Option Nat),
       (serve { w with insertVideo := DbResult.ret e1 id1 } req).1 =
         (serve { w with insertVideo := DbResult.ret e2 id2 } req).1 ∧
       (serve { w with insertVideo := DbResult.ret e1 id1 } req).2.status =
         (serve { w with insertVideo := DbResult.ret e2 id2 } req).2.status ∧
       stripId (serve { w with insertVideo := DbResult.ret e1 id1 } req).2.body =
         stripId (serve { w with insertVideo := DbResult.ret e2 id2 } req).2.body) := by
  constructor
  · intro w req o
    by_cases hm : req.method = "OPTIONS"
    · simp [serve, hm]
    · have hA := serveCore_insertMain_invariant req.body w.lovableApiKey
        req.authHeader w.getUser w.search1ApiKey w.searchFetch w.aiFetch
        w.jsonDecode w.insertVideo o w.insertMain
      have hB := serveCatch_strip _ _ hA.1 hA.2
      simp only [serve, if_neg hm, serveTry]
      exact hB
  · intro w req e1 e2 id1 id2
    by_cases hm : req.method = "OPTIONS"
    · simp [serve, hm]
    · have hA := serveCore_insertVideo_invariant req.body w.lovableApiKey
        req.authHeader w.getUser w.search1ApiKey w.searchFetch w.aiFetch
        w.jsonDecode e1 e2 id1 id2 w.insertMain
      have hB := serveCatch_strip _ _ hA.1 hA.2
      simp only [serve, if_neg hm, serveTry]
      exact hB

/-- C5 counterexample: on the oversized-video path a thrown insert is
not swallowed.  With a returning insert the very same request gets the
200 degraded body; with a throwing insert it gets the 500 error body —
the persistence failure changed both the status code and the body. -/
theorem video_insert_throw_changes_response :
    serve wVid reqVideoBig =
      ([Call.getUser, Call.feedbackRead, Call.dbInsert (videoRow { id := "u1" })],
       { status := 200, body := RespBody.videoTooLarge (some 7) }) ∧
    serve { wVid with insertVideo := DbResult.thrown "connection reset" } reqVideoBig =
      ([Call.getUser, Call.feedbackRead, Call.dbInsert (videoRow { id := "u1" })],
       { status := 500, body := RespBody.fatalError "connection reset" }) := by
  constructor
  · have h := serve_video_oversized wVid reqVideoBig
      { contentType := "video", content := none, fileData := some fdBig }
      fdBig "lk" "Bearer tok" { id := "u1" }
      (by decide) rfl rfl rfl fdBig_ne_empty fdBig_oversized rfl (by decide) rfl
      (by decide) rfl
    simpa using h
  · have h := serve_video_oversized
      { wVid with insertVideo := DbResult.thrown "connection reset" } reqVideoBig
      { contentType := "video", content := none, fileData := some fdBig }
      fdBig "lk" "Bearer tok" { id := "u1" }
      (by decide) rfl rfl rfl fdBig_ne_empty fdBig_oversized rfl (by decide) rfl
      (by decide) rfl
    simpa using h

/-! ### Characterization of the main tail and the switch cases -/

/-- The text case never produces an early response of its own. -/
theorem textCase_no_respond (fetch : Nat → Outcome SearchResp) (c : Option String)
    (keys : List String) (r : Response) :
    ¬(textCase fetch c keys).2 = Flow.respond r := by
  unfold textCase
  by_cases h : keys.length = 0
  · simp [h]
  · simp only [if_neg h]
    rcases hsl : searchLoop fetch c.isSome keys 0 with ⟨t, res⟩
    cases res with
    | none => simp
    | some p =>
        rcases p with ⟨results, rank⟩
        simp

/-- Every call recorded by the text case is a search fetch. -/
theorem textCase_calls (fetch : Nat → Outcome SearchResp) (c : Option String)
    (keys : List String) :
    ∀ e ∈ (textCase fetch c keys).1, ∃ j, e = Call.searchFetch j := by
  unfold textCase
  by_cases h : keys.length = 0
  · simp [h]
  · simp only [if_neg h]
    rcases hsl : searchLoop fetch c.isSome keys 0 with ⟨t, res⟩
    have hc := searchLoop_calls fetch c.isSome keys 0
    rw [hsl] at hc
    cases res with
    | none => simpa using hc
    | some p =>
        rcases p with ⟨results, rank⟩
        simpa using hc

/-- An early response from the video case is always the fixed
oversized-video 200 body. -/
theorem videoCase_respond_shape (iv : DbResult) (u : User) (fd : String) (r : Response) :
    (videoCase iv u fd).2 = Flow.respond r →
    ∃ id, r = { status := 200, body := RespBody.videoTooLarge id } := by
  unfold videoCase
  by_cases h : base64SizeBytes (dataUriPayload fd) > maxVideoSize
  · simp only [if_pos h]
    cases iv with
    | thrown m => simp
    | ret e id =>
        intro hr
        simp at hr
        exact ⟨id, hr.symm⟩
  · simp [h]

/-- When the video case falls through, it recorded no call. -/
theorem videoCase_next_trace (iv : DbResult) (u : User) (fd : String) :
    (videoCase iv u fd).2 = Flow.next () → (videoCase iv u fd).1 = [] := by
  unfold videoCase
  by_cases h : base64SizeBytes (dataUriPayload fd) > maxVideoSize
  · cases iv <;> simp [h]
  · simp [h]

/-- Explicit form of the tail on a successful model call: one gateway
call, one insert of the main row built from the extracted result, and
the assembled 200 response. -/
theorem mainTail_success_eq (jd : String → Option ModelOutput) (im : DbResult)
    (u : User) (ct : String) (c : Option String) (aku : Option Nat) (s : String) :
    mainTail (AIResult.success (Outcome.ret s)) jd im u ct c aku =
      ([Call.aiGateway, Call.dbInsert (mainRow u ct c (extractResult jd s))],
       TryResult.respond (assembleResponse (extractResult jd s)
         (match im with
          | DbResult.thrown _ => none
          | DbResult.ret e did => if e then none else did) ct aku)) := by
  unfold mainTail aiPhase persistPhase
  cases im <;> simp

/-- A 200 verdict response out of the tail pins down its origin: the
model call succeeded with some raw text `s`, the verdict is exactly the
extractor's output on `s` — no clamping or adjustment — and the only
insert the tail issued carries exactly that verdict's score. -/
theorem mainTail_spec (ai : AIResult) (jd : String → Option ModelOutput)
    (im : DbResult) (u : User) (ct : String) (c : Option String) (aku : Option Nat)
    (r : ModelOutput) (aid aku2 : Option Nat)
    (h : (mainTail ai jd im u ct c aku).2 =
      TryResult.respond { status := 200, body := RespBody.verdict r aid aku2 }) :
    (∃ s, ai = AIResult.success (Outcome.ret s) ∧ r = extractResult jd s) ∧
    ∀ row, Call.dbInsert row ∈ (mainTail ai jd im u ct c aku).1 →
      row.authenticity_score = r.authenticity := by
  cases ai with
  | thrown m => rw [mainTail] at h; simp [aiPhase] at h
  | httpError st et =>
      rw [mainTail] at h
      by_cases h429 : st = 429
      · simp [aiPhase, h429] at h
      · by_cases h402 : st = 402
        · simp [aiPhase, h429, h402] at h
        · simp [aiPhase, h429, h402] at h
  | success c0 =>
      cases c0 with
      | thrown m => rw [mainTail] at h; simp [aiPhase] at h
      | ret s =>
          rw [mainTail_success_eq] at h ⊢
          simp only [assembleResponse, TryResult.respond.injEq, Response.mk.injEq,
            RespBody.verdict.injEq, true_and] at h
          obtain ⟨hr, _, _⟩ := h
          refine ⟨⟨s, rfl, hr.symm⟩, ?_⟩
          intro row hrow
          simp only [List.mem_cons, List.mem_singleton] at hrow
          rcases hrow with h1 | h1 | h1
          · cases h1
          · cases h1
            rw [← hr]
            rfl
          · cases h1

/-- Trace split for the verdict path: membership in `pre ++ rest`. -/
theorem mem_pre_elim (e : Call) (rest : List Call)
    (h : e ∈ [Call.getUser, Call.feedbackRead] ++ rest) :
    e = Call.getUser ∨ e = Call.feedbackRead ∨ e ∈ rest := by
  simp only [List.cons_append, List.nil_append, List.mem_cons] at h
  tauto

/-- A 200 verdict response out of the whole try block pins down its
origin: the model call succeeded with some raw text, the verdict is the
extractor's output on it (unclamped), and every insert in the trace
carries exactly that verdict's score. -/
theorem serveCore_verdict (rb : Outcome RequestBody) (lov auth : Option String)
    (gu : Outcome GetUserRes) (s1 : Option String)
    (fetch : Nat → Outcome SearchResp) (ai : AIResult)
    (jd : String → Option ModelOutput) (iv im : DbResult) (t : List Call)
    (r : ModelOutput) (aid aku : Option Nat)
    (h : serveCore rb lov auth gu s1 fetch ai jd iv im =
      (t, TryResult.respond { status := 200, body := RespBody.verdict r aid aku })) :
    (∃ s, ai = AIResult.success (Outcome.ret s) ∧ r = extractResult jd s) ∧
    ∀ row, Call.dbInsert row ∈ t → row.authenticity_score = r.authenticity := by
  unfold serveCore at h
  cases rb with
  | thrown m => simp at h
  | ret b =>
    cases lov with
    | none => simp at h
    | some lk =>
      by_cases hlk : lk = ""
      · simp [hlk] at h
      · simp only [if_neg hlk] at h
        cases auth with
        | none => simp at h
        | some ah =>
          by_cases hah : ah = ""
          · simp [hah] at h
          · simp only [if_neg hah] at h
            cases gu with
            | thrown m => simp at h
            | ret gur =>
              obtain ⟨guUser, guErr⟩ := gur
              cases guErr with
              | true => simp at h
              | false =>
                cases guUser with
                | none => simp at h
                | some u =>
                  by_cases h1 : b.contentType = "text"
                  · simp only [h1, if_pos rfl, if_true] at h
                    cases htc : (textCase fetch b.content (search1ApiKeys s1)).2 with
                    | thrown m => rw [htc] at h; simp at h
                    | respond r0 =>
                        exact absurd htc (textCase_no_respond fetch b.content
                          (search1ApiKeys s1) r0)
                    | next out =>
                        rw [htc] at h
                        simp only [Prod.mk.injEq] at h
                        obtain ⟨hT, hR⟩ := h
                        have hms := mainTail_spec ai jd im u "text" b.content none
                          r aid aku hR
                        refine ⟨hms.1, ?_⟩
                        intro row hrow
                        rw [← hT] at hrow
                        rw [List.append_assoc] at hrow
                        rcases mem_pre_elim _ _ hrow with h0 | h0 | h0
                        · cases h0
                        · cases h0
                        · rcases List.mem_append.mp h0 with h2 | h2
                          · rcases textCase_calls fetch b.content
                              (search1ApiKeys s1) _ h2 with ⟨j, hj⟩
                            cases hj
                          · exact hms.2 row h2
                  · simp only [if_neg h1] at h
                    by_cases h2 : b.contentType = "image"
                    · simp only [h2, if_pos rfl, if_true] at h
                      cases hfd : b.fileData with
                      | none => rw [hfd] at h; simp at h
                      | some fd =>
                          simp only [hfd] at h
                          by_cases hfd0 : fd = ""
                          · simp [hfd0] at h
                          · simp only [if_neg hfd0] at h
                            simp only [Prod.mk.injEq] at h
                            obtain ⟨hT, hR⟩ := h
                            have hms := mainTail_spec ai jd im u "image"
                              b.content none r aid aku hR
                            refine ⟨hms.1, ?_⟩
                            intro row hrow
                            rw [← hT] at hrow
                            rcases mem_pre_elim _ _ hrow with h0 | h0 | h0
                            · cases h0
                            · cases h0
                            · exact hms.2 row h0
                    · simp only [if_neg h2] at h
                      by_cases h3 : b.contentType = "audio"
                      · simp only [h3, if_pos rfl, if_true] at h
                        cases hfd : b.fileData with
                        | none => rw [hfd] at h; simp at h
                        | some fd =>
                            simp only [hfd] at h
                            by_cases hfd0 : fd = ""
                            · simp [hfd0] at h
                            · simp only [if_neg hfd0] at h
                              simp only [Prod.mk.injEq] at h
                              obtain ⟨hT, hR⟩ := h
                              have hms := mainTail_spec ai jd im u "audio"
                                b.content none r aid aku hR
                              refine ⟨hms.1, ?_⟩
                              intro row hrow
                              rw [← hT] at hrow
                              rcases mem_pre_elim _ _ hrow with h0 | h0 | h0
                              · cases h0
                              · cases h0
                              · exact hms.2 row h0
                      · simp only [if_neg h3] at h
                        by_cases h4 : b.contentType = "video"
                        · simp only [h4, if_pos rfl, if_true] at h
                          cases hfd : b.fileData with
                          | none => rw [hfd] at h; simp at h
                          | some fd =>
                              simp only [hfd] at h
                              by_cases hfd0 : fd = ""
                              · simp [hfd0] at h
                              · simp only [if_neg hfd0] at h
                                cases hvc : (videoCase iv u fd).2 with
                                | thrown m => rw [hvc] at h; simp at h
                                | respond r0 =>
                                    rw [hvc] at h
                                    simp only [Prod.mk.injEq] at h
                                    obtain ⟨hT, hR⟩ := h
                                    rcases videoCase_respond_shape iv u fd r0 hvc
                                      with ⟨id0, hid⟩
                                    rw [hid] at hR
                                    simp at hR
                                | next a =>
                                    cases a
                                    rw [hvc] at h
                                    have htv := videoCase_next_trace iv u fd hvc
                                    simp only [Prod.mk.injEq] at h
                                    obtain ⟨hT, hR⟩ := h
                                    have hms := mainTail_spec ai jd im u "video"
                                      b.content none r aid aku hR
                                    refine ⟨hms.1, ?_⟩
                                    intro row hrow
                                    rw [← hT, htv] at hrow
                                    rw [List.append_assoc] at hrow
                                    rcases mem_pre_elim _ _ hrow with h0 | h0 | h0
                                    · cases h0
                                    · cases h0
                                    · rcases List.mem_append.mp h0 with hx | hx
                                      · simp at hx
                                      · exact hms.2 row hx
                        · simp only [if_neg h4] at h
                          simp at h

/-- A 200 verdict response from the handler came out of the try block
unchanged (the catch only manufactures 500 bodies, and the preflight
answer has an empty body). -/
theorem serve_verdict (w : World) (req : Request) (t : List Call) (r : ModelOutput)
    (aid aku : Option Nat)
    (h : serve w req = (t, { status := 200, body := RespBody.verdict r aid aku })) :
    serveTry w req =
      (t, TryResult.respond { status := 200, body := RespBody.verdict r aid aku }) := by
  by_cases hm : req.method = "OPTIONS"
  · rw [serve, if_pos hm] at h
    simp at h
  · rw [serve, if_neg hm] at h
    rcases hst : serveTry w req with ⟨t0, r0⟩
    rw [hst] at h
    cases r0 with
    | respond x =>
        simp only [serveCatch, Prod.mk.injEq] at h
        obtain ⟨h1, h2⟩ := h
        rw [h1, h2]
    | thrown m =>
        simp [serveCatch] at h

/-! ### C1 — scores are passed through unclamped -/

/-- C1 (amended): the handler applies no clamping anywhere.  On every
200 verdict response, the returned result is exactly the extractor's
output on the model's raw text — the decoded score verbatim, or the
fixed 50 of the parse fallback — and every datastore insert in the
trace carries exactly that same score.  An out-of-range decoded score
is therefore returned to the caller and handed to the datastore
unchanged (the schema's CHECK constraint can then reject the row, which
is rejection, not clamping). -/
theorem score_passthrough_unclamped (w : World) (req : Request) (t : List Call)
    (r : ModelOutput) (aid aku : Option Nat)
    (h : serve w req = (t, { status := 200, body := RespBody.verdict r aid aku })) :
    (∃ s, w.aiFetch = AIResult.success (Outcome.ret s) ∧
       r = extractResult w.jsonDecode s) ∧
    ∀ row, Call.dbInsert row ∈ t → row.authenticity_score = r.authenticity := by
  have h2 := serve_verdict w req t r aid aku h
  exact serveCore_verdict req.body w.lovableApiKey req.authHeader w.getUser
    w.search1ApiKey w.searchFetch w.aiFetch w.jsonDecode w.insertVideo w.insertMain
    t r aid aku h2

/-- The raw model text of the out-of-range image counterexample. -/
def aiTextImg : String :=
  "\x7b\"authenticity\": 150, \"status\": \"authentic\", \"details\": \"pristine\"\x7d"

/-- What `JSON.parse` yields on `aiTextImg`. -/
def out150 : ModelOutput :=
  { authenticity := 150, status := "authentic", details := "pristine" }

/-- The row the main path passes to the insert in that world: score 150,
which the datastore's CHECK constraint will reject. -/
def row150 : AnalysisRow :=
  { user_id := "u1", content_type := "image", authenticity_score := 150,
    detailed_analysis := "pristine", manipulation_indicators := [],
    content_preview := "image analysis" }

/-- A world whose model returns an out-of-range score of 150 and whose
main insert reports an error (the CHECK constraint). -/
def wImg : World :=
  { wBase with
      aiFetch := AIResult.success (Outcome.ret aiTextImg)
      jsonDecode := fun m => if m = aiTextImg then some out150 else none
      insertMain := DbResult.ret true none }

/-- An authenticated image request. -/
def reqImg : Request :=
  { method := "POST"
    body := Outcome.ret { contentType := "image", content := none,
                          fileData := some "data:image/png;base64,AAAA" }
    authHeader := some "Bearer tok" }

/-- C1 counterexample: a decoded score of 150 is returned in the body
and passed to the insert as-is — nothing clamps it into [0,100]. -/
theorem score_not_clamped_counterexample :
    serve wImg reqImg =
      ([Call.getUser, Call.feedbackRead, Call.aiGateway, Call.dbInsert row150],
       { status := 200, body := RespBody.verdict out150 none none }) ∧
    RespBody.authenticityField (RespBody.verdict out150 none none) = some 150 ∧
    row150.authenticity_score = 150 ∧
    (100 : Int) < 150 := by
  refine ⟨by decide, rfl, rfl, by decide⟩

/-- Witness for the amended C1 at the concrete out-of-range world. -/
theorem score_passthrough_unclamped_witness :
    (∃ s, wImg.aiFetch = AIResult.success (Outcome.ret s) ∧
       out150 = extractResult wImg.jsonDecode s) ∧
    ∀ row, Call.dbInsert row ∈
        [Call.getUser, Call.feedbackRead, Call.aiGateway, Call.dbInsert row150] →
      row.authenticity_score = out150.authenticity :=
  score_passthrough_unclamped wImg reqImg
    [Call.getUser, Call.feedbackRead, Call.aiGateway, Call.dbInsert row150]
    out150 none none (by decide)

/-! ### C6 — the audio band is requested, not enforced -/

/-- C6 (amended): the audio policy lives only in the prompt text.  For
an audio request that completes with a 200 verdict, the returned result
is exactly the extractor's output on the model's raw text, and the
persisted score equals it: nothing forces the status to "suspicious" or
clamps the score into [40,65] — only the parse fallback happens to land
on 50/"suspicious"; a decoded out-of-band result is returned and
persisted as-is. -/
theorem audio_band_not_enforced (w : World) (req : Request) (b : RequestBody)
    (t : List Call) (r : ModelOutput) (aid aku : Option Nat)
    (_hb : req.body = Outcome.ret b)
    (_hct : b.contentType = "audio")
    (h : serve w req = (t, { status := 200, body := RespBody.verdict r aid aku })) :
    (∃ s, w.aiFetch = AIResult.success (Outcome.ret s) ∧
       r = extractResult w.jsonDecode s) ∧
    ∀ row, Call.dbInsert row ∈ t → row.authenticity_score = r.authenticity := by
  have h2 := serve_verdict w req t r aid aku h
  exact serveCore_verdict req.body w.lovableApiKey req.authHeader w.getUser
    w.search1ApiKey w.searchFetch w.aiFetch w.jsonDecode w.insertVideo w.insertMain
    t r aid aku h2

/-- The raw model text of the out-of-band audio counterexample. -/
def aiTextAudio : String :=
  "\x7b\"authenticity\": 90, \"status\": \"authentic\", \"details\": \"clear waveform\"\x7d"

/-- What `JSON.parse` yields on `aiTextAudio`: status "authentic" and
score 90, both outside the band the prompt requested. -/
def outAudio : ModelOutput :=
  { authenticity := 90, status := "authentic", details := "clear waveform" }

/-- The row the audio path passes to the insert in that world. -/
def rowAudio : AnalysisRow :=
  { user_id := "u1", content_type := "audio", authenticity_score := 90,
    detailed_analysis := "clear waveform", manipulation_indicators := [],
    content_preview := "audio analysis" }

/-- A world whose model answers the audio prompt outside the requested
band and whose main insert succeeds with id 5. -/
def wAudio : World :=
  { wBase with
      aiFetch := AIResult.success (Outcome.ret aiTextAudio)
      jsonDecode := fun m => if m = aiTextAudio then some outAudio else none
      insertMain := DbResult.ret false (some 5) }

/-- An authenticated audio request. -/
def reqAudio : Request :=
  { method := "POST"
    body := Outcome.ret { contentType := "audio", content := none,
                          fileData := some "data:audio/mp3;base64,AAAA" }
    authHeader := some "Bearer tok" }

/-- C6 counterexample: an audio request whose model output decodes to
status "authentic" with score 90 is returned and persisted exactly so —
the response is neither "suspicious" nor within [40,65]. -/
theorem audio_band_counterexample :
    serve wAudio reqAudio =
      ([Call.getUser, Call.feedbackRead, Call.aiGateway, Call.dbInsert rowAudio],
       { status := 200, body := RespBody.verdict outAudio (some 5) none }) ∧
    RespBody.statusField (RespBody.verdict outAudio (some 5) none) =
      some "authentic" ∧
    RespBody.authenticityField (RespBody.verdict outAudio (some 5) none) =
      some 90 ∧
    (65 : Int) < 90 := by
  refine ⟨by decide, rfl, rfl, by decide⟩

/-- Witness for the amended C6 at the concrete out-of-band world. -/
theorem audio_band_not_enforced_witness :
    (∃ s, wAudio.aiFetch = AIResult.success (Outcome.ret s) ∧
       outAudio = extractResult wAudio.jsonDecode s) ∧
    ∀ row, Call.dbInsert row ∈
        [Call.getUser, Call.feedbackRead, Call.aiGateway, Call.dbInsert rowAudio] →
      row.authenticity_score = outAudio.authenticity :=
  audio_band_not_enforced wAudio reqAudio
    { contentType := "audio", content := none,
      fileData := some "data:audio/mp3;base64,AAAA" }
    [Call.getUser, Call.feedbackRead, Call.aiGateway, Call.dbInsert rowAudio]
    outAudio (some 5) none rfl rfl (by decide)

/-! ### C8 — the credential rank is tracked but never surfaced -/

/-- The raw model text of the text-analysis run. -/
def aiTextText : String :=
  "\x7b\"authenticity\": 85, \"status\": \"authentic\", \"details\": \"matches sources\"\x7d"

/-- What `JSON.parse` yields on `aiTextText`. -/
def outText : ModelOutput :=
  { authenticity := 85, status := "authentic", details := "matches sources" }

/-- The row the text path passes to the insert in that world. -/
def rowText : AnalysisRow :=
  { user_id := "u1", content_type := "text", authenticity_score := 85,
    detailed_analysis := "matches sources", manipulation_indicators := [],
    content_preview := "article" }

/-- A world where credential 1 fails, credential 2 succeeds, the model
answers decodably, and the insert succeeds with id 9. -/
def wText2 : World :=
  { wBase with
      searchFetch := fetchW
      aiFetch := AIResult.success (Outcome.ret aiTextText)
      jsonDecode := fun m => if m = aiTextText then some outText else none
      insertMain := DbResult.ret false (some 9) }

set_option maxRecDepth 4000 in
/-- C8: the switch-scoped `apiKeyUsed` correctly tracks that the second
credential was used (rank 2), but the response never carries an
`apiKeyUsed` field — the assembly reads the function-scoped variable,
which the shadowing declaration inside the switch left `undefined` — so
the rank is not surfaced even on this successful text run. -/
theorem apiKeyUsed_never_surfaced :
    serve wText2 reqTextAuth =
      ([Call.getUser, Call.feedbackRead, Call.searchFetch 0, Call.searchFetch 1,
        Call.aiGateway, Call.dbInsert rowText],
       { status := 200, body := RespBody.verdict outText (some 9) none }) ∧
    (textCase wText2.searchFetch (some "article")
        (search1ApiKeys wText2.search1ApiKey)).2 =
      Flow.next { searchResults := [itemW], apiKeyUsed := 2 } := by
  refine ⟨by decide, by decide⟩

/-! ### C9 — fatal failures are always a structured JSON body -/

/-- C9: (1) whatever the try block throws, the outer catch answers the
structured 500 body carrying the message, with authenticity 0, status
"error" and the fixed details text — never an unhandled exception; and
(2) in particular a text request whose `content` field is absent — where
building the search query would throw — degrades credential by
credential without a single search call and surfaces as the structured
exhaustion 500. -/
theorem fatal_errors_are_structured :
    (∀ (w : World) (req : Request) (t : List Call) (msg : String),
        req.method ≠ "OPTIONS" →
        serveTry w req = (t, TryResult.thrown msg) →
        serve w req = (t, { status := 500, body := RespBody.fatalError msg }) ∧
        RespBody.authenticityField (RespBody.fatalError msg) = some 0 ∧
        RespBody.statusField (RespBody.fatalError msg) = some "error" ∧
        RespBody.detailsField (RespBody.fatalError msg) = some fatalDetails) ∧
    (∀ (w : World) (req : Request) (b : RequestBody) (key auth : String) (u : User),
        req.method ≠ "OPTIONS" →
        req.body = Outcome.ret b →
        b.contentType = "text" →
        b.content = none →
        w.lovableApiKey = some key →
        key ≠ "" →
        req.authHeader = some auth →
        auth ≠ "" →
        w.getUser = Outcome.ret { user := some u, error := false } →
        serve w req =
          ([Call.getUser, Call.feedbackRead],
           { status := 500,
             body := RespBody.fatalError
               "Failed to verify article - all API keys exhausted" })) := by
  constructor
  · intro w req t msg hm hst
    refine ⟨?_, rfl, rfl, rfl⟩
    rw [serve, if_neg hm, hst]
    rfl
  · intro w req b key auth u hm hb hct hc0 hk hknz ha hanz hgu
    have hlen : ¬(search1ApiKeys w.search1ApiKey).length = 0 := by
      have := search1ApiKeys_length w.search1ApiKey; omega
    have htc : textCase w.searchFetch none (search1ApiKeys w.search1ApiKey) =
        ([], Flow.thrown "Failed to verify article - all API keys exhausted") := by
      unfold textCase
      rw [if_neg hlen]
      simp only [Option.isSome_none, searchLoop_noContent]
    unfold serve serveCatch
    rw [if_neg hm]
    unfold serveTry serveCore
    simp only [hb, hk, ha, hgu, hct, hc0, if_neg hknz, if_neg hanz,
      if_pos (show ("text" : String) = "text" from rfl)]
    simp only [if_true, htc]
    simp

/-- A request whose body fails to parse. -/
def reqBadBody : Request :=
  { method := "POST"
    body := Outcome.thrown "Unexpected end of JSON input"
    authHeader := none }

/-- An authenticated text request with no `content` field. -/
def reqTextNoContent : Request :=
  { method := "POST"
    body := Outcome.ret { contentType := "text", content := none, fileData := none }
    authHeader := some "Bearer tok" }

/-- Witness for C9: a malformed body and a content-free text request
both land on the structured 500 body. -/
theorem fatal_errors_are_structured_witness :
    serve wBase reqBadBody =
      ([], { status := 500,
             body := RespBody.fatalError "Unexpected end of JSON input" }) ∧
    serve wBase reqTextNoContent =
      ([Call.getUser, Call.feedbackRead],
       { status := 500,
         body := RespBody.fatalError
           "Failed to verify article - all API keys exhausted" }) := by
  constructor
  · exact (fatal_errors_are_structured.1 wBase reqBadBody []
      "Unexpected end of JSON input" (by decide) rfl).1
  · exact fatal_errors_are_structured.2 wBase reqTextNoContent
      { contentType := "text", content := none, fileData := none }
      "lk" "Bearer tok" { id := "u1" } (by decide) rfl rfl rfl rfl (by decide)
      rfl (by decide) rfl

end TruthSeeker

